import Mathlib

set_option maxRecDepth 200000

/-
A shallow embedding of the RealEstateGrid ingestion pipeline
(data-loader.js and data-processor.js).

Modelling conventions:
  * JavaScript numbers are modelled as exact rationals (ℚ); float rounding,
    overflow to Infinity, and engine number formatting are outside the model.
  * NaN is modelled by `Option ℚ` at operation results (`none` = NaN) and by
    the `JSVal.nan` constructor where a NaN must be stored in a record.
  * Exceptions thrown while processing one row are caught by the source's
    per-row try/catch and turn into a skip, so each per-row function is a
    total function returning `Option Record` (`none` = the row was skipped).
  * Strings are character lists, so that the source's regular-expression
    shape checks become decidable predicates on `List Char`.
-/

namespace RealEstate

/-- Scalar JavaScript values occurring in rows and output records: strings
(as character lists), finite numbers (as rationals), NaN, and null. -/
inductive JSVal where
  | str : List Char → JSVal
  | num : ℚ → JSVal
  | nan : JSVal
  | nullv : JSVal
deriving DecidableEq, Repr

/-- Document-adapter values: a scalar or a flat array of scalars (the
document adapter inspects `item.position` as an array; deeper nesting is not
exercised by any pipeline code path and is not modelled). -/
inductive DVal where
  | v : JSVal → DVal
  | arr : List JSVal → DVal
deriving DecidableEq, Repr

/-- Rows handed to the CSV-shaped and relational adapters: ordered key-value
pairs with scalar values (csv-parse and SQL drivers produce scalars). -/
abbrev Row := List (String × JSVal)

/-- Rows handed to the document-shaped adapter (parsed JSON objects). -/
abbrev DocRow := List (String × DVal)

/-- Property access `record[name]`: first binding of the key, `none` for a
missing key (JavaScript `undefined`). -/
def lookupRow {α : Type} : List (String × α) → String → Option α
  | [], _ => none
  | (k, v) :: rest, key => if k = key then some v else lookupRow rest key

/-- JavaScript truthiness of a scalar value. -/
def truthy : JSVal → Bool
  | JSVal.str s => decide (s ≠ [])
  | JSVal.num q => decide (q ≠ 0)
  | JSVal.nan => false
  | JSVal.nullv => false

/-- Truthiness of a possibly-missing value (`undefined` is falsy). -/
def truthyOpt : Option JSVal → Bool
  | some v => truthy v
  | none => false

/-- JavaScript `a || b` on possibly-missing values: the first operand when
truthy, otherwise the second operand verbatim. -/
def jsOrOpt (a b : Option JSVal) : Option JSVal :=
  match a with
  | some v => if truthy v then some v else b
  | none => b

/-- JavaScript `a || d` with a definite default: used for the
`getValue(...) || ''` and `parseFloat(...) || 0` record-field defaults. -/
def jsOrVal (a : Option JSVal) (d : JSVal) : JSVal :=
  match a with
  | some v => if truthy v then v else d
  | none => d

/-- Characters treated as whitespace by the numeric parsers. -/
def isSpaceChar (c : Char) : Bool :=
  c = ' ' || c = '\t' || c = '\n' || c = '\r'

/-- Decimal value of a digit string (the behaviour of `parseInt` on an
all-digit capture group). -/
def digitsToNat (ds : List Char) : Nat :=
  ds.foldl (fun a c => a * 10 + (c.toNat - 48)) 0

/-- Exponent part of a decimal literal: consumes `e`/`E`, an optional sign
and at least one digit; if the digits are missing nothing is consumed
(matching `parseFloat`, which then stops before the `e`). -/
def parseExpPart (s : List Char) : Int × List Char :=
  match s with
  | 'e' :: rest => parseExpDigits s rest
  | 'E' :: rest => parseExpDigits s rest
  | _ => (0, s)
where
  parseExpDigits (orig rest : List Char) : Int × List Char :=
    match rest with
    | '-' :: t =>
      let ds := t.takeWhile Char.isDigit
      if ds = [] then (0, orig) else (-(digitsToNat ds : Int), t.dropWhile Char.isDigit)
    | '+' :: t =>
      let ds := t.takeWhile Char.isDigit
      if ds = [] then (0, orig) else ((digitsToNat ds : Int), t.dropWhile Char.isDigit)
    | t =>
      let ds := t.takeWhile Char.isDigit
      if ds = [] then (0, orig) else ((digitsToNat ds : Int), t.dropWhile Char.isDigit)

/-- Scale a rational by a signed power of ten. -/
def scalePow10 (q : ℚ) (e : Int) : ℚ :=
  if 0 ≤ e then q * (10 : ℚ) ^ e.toNat else q / (10 : ℚ) ^ (-e).toNat

/-- Longest decimal-literal prefix of a character list: optional sign,
digits with an optional fraction, optional exponent.  Returns the value and
the unconsumed rest, or `none` when no digit is found (hexadecimal literals
and the `Infinity` keyword are outside the model; no pipeline input uses
them). -/
def parseDecimal (s : List Char) : Option (ℚ × List Char) :=
  let signAndRest : ℚ × List Char :=
    match s with
    | '-' :: t => (-1, t)
    | '+' :: t => (1, t)
    | _ => (1, s)
  let sign := signAndRest.1
  let s1 := signAndRest.2
  let ip := s1.takeWhile Char.isDigit
  let s2 := s1.dropWhile Char.isDigit
  let fracAndRest : List Char × List Char :=
    match s2 with
    | '.' :: t => (t.takeWhile Char.isDigit, t.dropWhile Char.isDigit)
    | _ => ([], s2)
  let fp := fracAndRest.1
  let s3 := fracAndRest.2
  if ip = [] ∧ fp = [] then none
  else
    let mant : ℚ := (digitsToNat ip : ℚ) + (digitsToNat fp : ℚ) / (10 : ℚ) ^ fp.length
    let expAndRest := parseExpPart s3
    some (scalePow10 (sign * mant) expAndRest.1, expAndRest.2)

/-- JavaScript `parseFloat` on a string: skip leading whitespace, then take
the longest decimal-literal prefix; NaN (`none`) when there is none. -/
def parseFloatChars (s : List Char) : Option ℚ :=
  match parseDecimal (s.dropWhile isSpaceChar) with
  | some (q, _) => some q
  | none => none

/-- JavaScript `ToNumber` of a string (used by the `<`/`>` comparisons of
the document adapter): trimmed empty string is `0`; otherwise the whole
trimmed string must be a decimal literal. -/
def toNumberChars (s : List Char) : Option ℚ :=
  let t := ((s.dropWhile isSpaceChar).reverse.dropWhile isSpaceChar).reverse
  if t = [] then some 0
  else
    match parseDecimal t with
    | some (q, []) => some q
    | _ => none

/-- JavaScript `parseFloat` applied to a possibly-missing scalar: a number
round-trips through its decimal rendering, a string is prefix-parsed,
`undefined`, `null` and NaN all parse to NaN. -/
def jsParseFloat : Option JSVal → Option ℚ
  | some (JSVal.num q) => some q
  | some (JSVal.str s) => parseFloatChars s
  | some JSVal.nan => none
  | some JSVal.nullv => none
  | none => none

/-- JavaScript `ToNumber` of a scalar. -/
def jsToNumber : JSVal → Option ℚ
  | JSVal.num q => some q
  | JSVal.str s => toNumberChars s
  | JSVal.nan => none
  | JSVal.nullv => some 0

/-- Truthiness of a JavaScript number result (`none` = NaN): falsy exactly
for NaN and zero. -/
def numTruthy : Option ℚ → Bool
  | some q => decide (q ≠ 0)
  | none => false

/-- JavaScript `x || 0` on a number result: NaN and zero become zero. -/
def orZero (o : Option ℚ) : ℚ := o.getD 0

/-- Wrap a number result as a stored value (NaN is stored as NaN). -/
def numToJS : Option ℚ → JSVal
  | some q => JSVal.num q
  | none => JSVal.nan

/-- Leftmost match of the long era regular expression, one digit run, the
character 年, a digit run, the character 月: walking the string, at each 年
the maximal digit run ending just before it and the maximal digit run right
after it are inspected; both must be non-empty and the latter must be
followed by 月.  (Shrinking a greedy digit run can never help the regex
engine here, since the next character would have to be both 年/月 and a
digit, so this scan computes exactly the leftmost regex match.)  The
reversed prefix of already-visited characters is carried along. -/
def longFormAux : List Char → List Char → Option (List Char × List Char)
  | _, [] => none
  | revPrev, c :: rest =>
    if c == '年' then
      let yr := (revPrev.takeWhile Char.isDigit).reverse
      let mo := rest.takeWhile Char.isDigit
      let rest2 := rest.dropWhile Char.isDigit
      if !yr.isEmpty && !mo.isEmpty && rest2.head? == some '月' then some (yr, mo)
      else longFormAux (c :: revPrev) rest
    else longFormAux (c :: revPrev) rest

/-- Leftmost match of the compact era regular expression, three digits then
two digits with no anchor: the first position where five consecutive digits
start, split three/two. -/
def compactAux : List Char → Option (List Char × List Char)
  | [] => none
  | c :: rest =>
    match c :: rest with
    | a :: b :: c2 :: d :: e :: _ =>
      if a.isDigit && b.isDigit && c2.isDigit && d.isDigit && e.isDigit
      then some ([a, b, c2], [d, e])
      else compactAux rest
    | _ => none

/-- Decimal digits of a natural number, most significant first (the
rendering of a positive integer in a template literal). -/
def natDigitsGo : Nat → Nat → List Char → List Char
  | 0, _, acc => acc
  | Nat.succ fuel, m, acc =>
    if m = 0 then acc else natDigitsGo fuel (m / 10) (Char.ofNat (48 + m % 10) :: acc)

/-- Decimal digit string of a natural number. -/
def natDigits (n : Nat) : List Char :=
  if n = 0 then ['0'] else natDigitsGo n n []

/-- JavaScript `padStart(2, '0')` on a digit string. -/
def padStart2 (m : List Char) : List Char :=
  if m.length < 2 then List.replicate (2 - m.length) '0' ++ m else m

/-- Source `convertROCtoAD` (data-processor.js): try the long era form
`(\d+)年(\d+)月` (year plus 1911, month left-padded to two digits), then the
unanchored compact form `(\d{3})(\d{2})`; `none` models the `null` return. -/
def convertROCtoAD (s : List Char) : Option (List Char) :=
  match longFormAux [] s with
  | some (y, m) => some (natDigits (digitsToNat y + 1911) ++ '-' :: padStart2 m)
  | none =>
    match compactAux s with
    | some (y3, m2) => some (natDigits (digitsToNat y3 + 1911) ++ '-' :: m2)
    | none => none

/-- Test of the anchored shape `^\d{4}-\d{2}`: four digits, a dash, two
digits at the start of the string. -/
def matchYM : List Char → Bool
  | a :: b :: c :: d :: e :: f :: g :: _ =>
    a.isDigit && b.isDigit && c.isDigit && d.isDigit &&
      (e == '-') && f.isDigit && g.isDigit
  | _ => false

/-- Date stage of `processCSVRecords` (steps 1-2): on a string containing 年
the row keeps `convertROCtoAD`'s result even when that is `null`; otherwise a
string matching `^\d{4}-\d{2}` is truncated to its first seven characters;
every other raw date (including a missing one, and the throwing accesses
`.includes`/`.match` on non-strings, caught by the per-row try) skips the
row.  The outer `none` is a skip, the inner `Option` is the possibly-null
`yearMonth` variable. -/
def dateStage : Option JSVal → Option (Option (List Char))
  | some (JSVal.str s) =>
    if s.contains '年' then some (convertROCtoAD s)
    else if matchYM s then some (some (s.take 7))
    else none
  | _ => none

/-- Source `getValue` (processCSVRecords step 1): first alias whose value in
the row is present, not null and not the empty string; the returned
sentinel for no match is `null`, modelled as `none`.  Key matching is the
JavaScript property access `record[name]`, which is exact (case-sensitive). -/
def getValue (record : Row) : List String → Option JSVal
  | [] => none
  | name :: rest =>
    match lookupRow record name with
    | some v =>
      if v = JSVal.nullv ∨ v = JSVal.str [] then getValue record rest else some v
    | none => getValue record rest

/-- Canonical output record (the object pushed onto `processedData`).
`yearMonth` and `buildingType` are `Option`s because the relational adapter
can push `undefined` for them and the CSV adapter can push a `null`
year-month. -/
structure Record where
  position : List JSVal
  price : DVal
  yearMonth : Option DVal
  area : DVal
  address : DVal
  buildingType : Option DVal
  totalPrice : DVal
deriving DecidableEq, Repr

/-- Alias lists for the eight canonical fields (`defaultMapping` merged with
the caller's `fieldMapping` override; the merge itself is per-key object
spread, so options carry the already-merged mapping). -/
structure FieldMapping where
  yearMonth : List String
  price : List String
  latitude : List String
  longitude : List String
  area : List String
  address : List String
  buildingType : List String
  totalPrice : List String
deriving DecidableEq, Repr

/-- Source `defaultMapping` of `processCSVRecords`. -/
def defaultMapping : FieldMapping where
  yearMonth := ["交易年月", "交易年月日", "yearMonth", "date"]
  price := ["單價元平方公尺", "單價", "price", "unitPrice"]
  latitude := ["緯度", "latitude", "lat"]
  longitude := ["經度", "longitude", "lng", "lon"]
  area := ["建物移轉總面積坪", "土地移轉總面積坪", "area"]
  address := ["交易標的", "土地位置建物門牌", "address"]
  buildingType := ["建物型態", "建物現況格局-建物型態", "buildingType"]
  totalPrice := ["總價元", "交易價格", "totalPrice"]

/-- Options of `processCSVRecords`. -/
structure CSVOptions where
  minPrice : ℚ
  maxPrice : ℚ
  buildingTypes : List JSVal
  fieldMapping : FieldMapping
deriving DecidableEq, Repr

/-- Defaults of `processCSVRecords`'s destructured options. -/
def defaultCSVOptions : CSVOptions :=
  ⟨100000, 2000000, [], defaultMapping⟩

/-- Options of `processDatabaseRecords`, `validateAndProcessData` and
`processRealEstateData` (no field mapping). -/
structure Filters where
  minPrice : ℚ
  maxPrice : ℚ
  buildingTypes : List JSVal
deriving DecidableEq, Repr

/-- Default filter bounds. -/
def defaultFilters : Filters := ⟨100000, 2000000, []⟩

/-- Membership test `buildingTypes.includes(x)` where `x` may be the `null`
or `undefined` sentinel (never a member of a caller-supplied list). -/
def memOpt (l : List JSVal) : Option JSVal → Bool
  | some x => l.contains x
  | none => false

/-- Price derivation of `processCSVRecords` (steps 2-3): the direct
unit-price field, and when that is falsy (NaN or zero) the total price over
the area, only when both are strictly positive; otherwise the falsy direct
value is kept (to be rejected by the following filter). -/
def derivePriceCSV (m : FieldMapping) (record : Row) : Option ℚ :=
  let direct := jsParseFloat (getValue record m.price)
  if numTruthy direct then direct
  else
    let t := orZero (jsParseFloat (getValue record m.totalPrice))
    let a := orZero (jsParseFloat (getValue record m.area))
    if 0 < t ∧ 0 < a then some (t / a) else direct

/-- Per-row body of `processCSVRecords`: `none` is a skipped row (any
`continue` or caught exception), `some` is the pushed record. -/
def processCSVRow (opts : CSVOptions) (record : Row) : Option Record :=
  let m := opts.fieldMapping
  match dateStage (getValue record m.yearMonth) with
  | none => none
  | some ym =>
    match derivePriceCSV m record with
    | none => none
    | some p =>
      if p = 0 ∨ p < opts.minPrice ∨ opts.maxPrice < p then none
      else
        match jsParseFloat (getValue record m.latitude),
              jsParseFloat (getValue record m.longitude) with
        | some la, some lo =>
          if la = 0 ∨ lo = 0 then none
          else
            let bt := getValue record m.buildingType
            if opts.buildingTypes ≠ [] ∧ ¬ memOpt opts.buildingTypes bt then none
            else some
              { position := [JSVal.num lo, JSVal.num la]
                price := DVal.v (JSVal.num p)
                yearMonth := ym.map (fun l => DVal.v (JSVal.str l))
                area := DVal.v (JSVal.num (orZero (jsParseFloat (getValue record m.area))))
                address := DVal.v (jsOrVal (getValue record m.address) (JSVal.str []))
                buildingType := some (DVal.v (jsOrVal bt (JSVal.str [])))
                totalPrice := DVal.v (JSVal.num (orZero (jsParseFloat (getValue record m.totalPrice)))) }
        | _, _ => none

/-- Accumulation loop shared by the three adapters: each row is either
pushed (in input order) or counted in `skipped`. -/
def runRows {α : Type} (f : α → Option Record) : List α → List Record × Nat
  | [] => ([], 0)
  | r :: rs =>
    let rest := runRows f rs
    match f r with
    | some rec => (rec :: rest.1, rest.2)
    | none => (rest.1, rest.2 + 1)

/-- Source `processCSVRecords` (data-loader.js): the returned value is the
processed array paired with the final `skipped` counter. -/
def processCSVRecords (opts : CSVOptions) (records : List Row) : List Record × Nat :=
  runRows (processCSVRow opts) records

/-- Helper for string literals in rows. -/
def jstr (s : String) : JSVal := JSVal.str s.data

/-- Year-month derived from `new Date(record.transaction_date)` in
`processDatabaseRecords`: for an ISO-prefixed date string the template
literal year dash zero-padded month; an unparsable date gives the string
the template literal produces from NaN fields.  (Engine time-zone effects
and numeric epoch arguments are outside the model; no theorem below
depends on this branch.) -/
def dateToYM : JSVal → List Char
  | JSVal.str s => if matchYM s then s.take 4 ++ '-' :: ((s.drop 5).take 2) else "NaN-NaN".data
  | _ => "NaN-NaN".data

/-- Fallback year-month of the relational adapter when `year_month` is
falsy: a truthy `transaction_date` is parsed, otherwise `yearMonth` stays
`undefined`. -/
def ymFromDate (record : Row) : Option JSVal :=
  match lookupRow record "transaction_date" with
  | some v => if truthy v then some (JSVal.str (dateToYM v)) else none
  | none => none

/-- Per-row body of `processDatabaseRecords` (data-loader.js): snake-case
keys, `a || b` fallbacks, the same price and coordinate filters as the CSV
adapter, and an unvalidated `year_month` passthrough. -/
def processDatabaseRow (opts : Filters) (record : Row) : Option Record :=
  match jsParseFloat (jsOrOpt (lookupRow record "unit_price") (lookupRow record "price")) with
  | none => none
  | some p =>
    if p = 0 ∨ p < opts.minPrice ∨ opts.maxPrice < p then none
    else
      match jsParseFloat (jsOrOpt (lookupRow record "latitude") (lookupRow record "lat")),
            jsParseFloat (jsOrOpt (lookupRow record "longitude")
              (jsOrOpt (lookupRow record "lng") (lookupRow record "lon"))) with
      | some la, some lo =>
        if la = 0 ∨ lo = 0 then none
        else
          if opts.buildingTypes ≠ [] ∧
              ¬ memOpt opts.buildingTypes (lookupRow record "building_type") then none
          else
            let ym : Option JSVal :=
              match lookupRow record "year_month" with
              | some v => if truthy v then some v else ymFromDate record
              | none => ymFromDate record
            some
              { position := [JSVal.num lo, JSVal.num la]
                price := DVal.v (JSVal.num p)
                yearMonth := ym.map DVal.v
                area := DVal.v (JSVal.num (orZero (jsParseFloat (lookupRow record "area"))))
                address := DVal.v (jsOrVal (lookupRow record "address") (JSVal.str []))
                buildingType := some (DVal.v (jsOrVal (lookupRow record "building_type") (JSVal.str [])))
                totalPrice := DVal.v (JSVal.num (orZero (jsParseFloat (lookupRow record "total_price")))) }
      | _, _ => none

/-- Source `processDatabaseRecords` (data-loader.js). -/
def processDatabaseRecords (opts : Filters) (records : List Row) : List Record × Nat :=
  runRows (processDatabaseRow opts) records

/-- Truthiness of a document value (arrays, being objects, are truthy). -/
def truthyD : DVal → Bool
  | DVal.v x => truthy x
  | DVal.arr _ => true

/-- JavaScript `ToNumber` of a document value.  An empty array coerces to
zero and a one-element array to its element's number; longer arrays join to
a comma-separated string, coercing to NaN except in degenerate cases that
no pipeline input exercises, so they are modelled as NaN. -/
def jsToNumberD : DVal → Option ℚ
  | DVal.v x => jsToNumber x
  | DVal.arr [] => some 0
  | DVal.arr [x] => jsToNumber x
  | DVal.arr _ => none

/-- JavaScript `x < bound` with a numeric bound: both operands are coerced
to numbers and a NaN comparison is false. -/
def dLt (v : DVal) (bound : ℚ) : Bool :=
  match jsToNumberD v with
  | some x => decide (x < bound)
  | none => false

/-- JavaScript `x > bound` with a numeric bound. -/
def dGt (v : DVal) (bound : ℚ) : Bool :=
  match jsToNumberD v with
  | some x => decide (bound < x)
  | none => false

/-- JavaScript `a || d` on document values. -/
def dOr (a : Option DVal) (d : DVal) : DVal :=
  match a with
  | some v => if truthyD v then v else d
  | none => d

/-- Membership test `buildingTypes.includes(item.buildingType)` for the
document adapter (an array operand is compared by reference, hence never a
member of a caller-supplied list of fresh scalars). -/
def memOptD (l : List JSVal) : Option DVal → Bool
  | some (DVal.v x) => l.contains x
  | some (DVal.arr _) => false
  | none => false

/-- Per-row body of `validateAndProcessData` (data-loader.js): requires
`position` to be a two-element array and `price`/`yearMonth` to be truthy,
applies the bound comparisons directly to the raw `price` value, and copies
the fields through with `|| defaults`. -/
def validateRow (opts : Filters) (item : DocRow) : Option Record :=
  match lookupRow item "position" with
  | some (DVal.arr l) =>
    if l.length ≠ 2 then none
    else
      match lookupRow item "price", lookupRow item "yearMonth" with
      | some pv, some yv =>
        if !truthyD pv || !truthyD yv then none
        else if dLt pv opts.minPrice ∨ dGt pv opts.maxPrice then none
        else if opts.buildingTypes ≠ [] ∧
            ¬ memOptD opts.buildingTypes (lookupRow item "buildingType") then none
        else some
          { position := l
            price := pv
            yearMonth := some yv
            area := dOr (lookupRow item "area") (DVal.v (JSVal.num 0))
            address := dOr (lookupRow item "address") (DVal.v (JSVal.str []))
            buildingType := some (dOr (lookupRow item "buildingType") (DVal.v (JSVal.str [])))
            totalPrice := dOr (lookupRow item "totalPrice") (DVal.v (JSVal.num 0)) }
      | _, _ => none
  | _ => none

/-- Source `validateAndProcessData` (data-loader.js) on an array argument
(a non-array argument throws before the loop and is outside this model). -/
def validateAndProcessData (opts : Filters) (data : List DocRow) : List Record × Nat :=
  runRows (validateRow opts) data

/-- Decimal rendering of a rational whose denominator divides a power of
ten, searching exponents zero to twenty (every value stored by the pipeline
from decimal input is of this shape); other denominators fall back to a
numerator-slash-denominator rendering that no modelled input reaches.
This models `String(x)` for the address join only. -/
def qToChars (q : ℚ) : List Char :=
  let n := q.num.natAbs
  let d := q.den
  let sign : List Char := if q.num < 0 then ['-'] else []
  match (List.range 21).find? (fun k => d ∣ 10 ^ k) with
  | some k =>
    if k = 0 then sign ++ natDigits n
    else
      let scaled := n * 10 ^ k / d
      let digits := natDigits scaled
      let padded := if digits.length < k + 1 then List.replicate (k + 1 - digits.length) '0' ++ digits else digits
      sign ++ padded.take (padded.length - k) ++ '.' :: padded.drop (padded.length - k)
  | none => sign ++ natDigits n ++ '/' :: natDigits d

/-- String rendering a truthy scalar contributes to the address join. -/
def jsToStringV : JSVal → List Char
  | JSVal.str s => s
  | JSVal.num q => qToChars q
  | _ => []

/-- Address assembled by `processRealEstateData` step 5: the three
components (the third itself an `a || b` fallback), kept when truthy,
joined with the empty separator. -/
def redAddress (record : Row) : List Char :=
  let parts : List (Option JSVal) :=
    [lookupRow record "縣市", lookupRow record "鄉鎮市區",
     jsOrOpt (lookupRow record "交易標的") (lookupRow record "土地位置建物門牌")]
  ((parts.filterMap id).filter truthy).map jsToStringV |>.flatten

/-- Price derivation of `processRealEstateData` step 2 (fixed keys instead
of alias lists; the direct field itself has an `a || b` fallback between
the two unit-price spellings). -/
def derivePriceRED (record : Row) : Option ℚ :=
  let d1 := jsParseFloat (lookupRow record "單價元平方公尺")
  let direct := if numTruthy d1 then d1 else jsParseFloat (lookupRow record "單價")
  if numTruthy direct then direct
  else
    let t := orZero (jsParseFloat (jsOrOpt (lookupRow record "總價元") (lookupRow record "交易價格")))
    let a := orZero (jsParseFloat (jsOrOpt (lookupRow record "建物移轉總面積坪") (lookupRow record "土地移轉總面積坪")))
    if 0 < t ∧ 0 < a then some (t / a) else direct

/-- Per-row body of `processRealEstateData` (data-processor.js).  The
`Math.random()` source is an oracle `rand : Nat → ℚ` consumed at index `k`;
the returned index advances by two exactly when `geocodeAddress` runs (it
draws one sample for `lat`, then one for `lng`).  A row with truthy 緯度
and 經度 fields stores their parsed values (possibly NaN) without any
validity check; otherwise the geocode fallback produces
`25.0330 + (r - 0.5) * 0.1` and `121.5654 + (r - 0.5) * 0.1`. -/
def processREDRow (opts : Filters) (rand : Nat → ℚ) (k : Nat) (record : Row) :
    Option Record × Nat :=
  match jsOrOpt (lookupRow record "交易年月") (lookupRow record "交易年月日") with
  | some (JSVal.str s) =>
    match convertROCtoAD s with
    | none => (none, k)
    | some ym =>
      match derivePriceRED record with
      | none => (none, k)
      | some p =>
        if p = 0 ∨ p < opts.minPrice ∨ opts.maxPrice < p then (none, k)
        else
          let bt := jsOrOpt (lookupRow record "建物型態") (lookupRow record "建物現況格局-建物型態")
          if opts.buildingTypes ≠ [] ∧ ¬ memOpt opts.buildingTypes bt then (none, k)
          else
            let addr := redAddress record
            let mkRec : JSVal → JSVal → Record := fun lngV latV =>
              { position := [lngV, latV]
                price := DVal.v (JSVal.num p)
                yearMonth := some (DVal.v (JSVal.str ym))
                area := DVal.v (JSVal.num (orZero (jsParseFloat (lookupRow record "建物移轉總面積坪"))))
                address := DVal.v (JSVal.str addr)
                buildingType := bt.map DVal.v
                totalPrice := DVal.v (JSVal.num (orZero (jsParseFloat (lookupRow record "總價元")))) }
            if truthyOpt (lookupRow record "緯度") && truthyOpt (lookupRow record "經度") then
              (some (mkRec (numToJS (jsParseFloat (lookupRow record "經度")))
                           (numToJS (jsParseFloat (lookupRow record "緯度")))), k)
            else
              let la : ℚ := 25033 / 1000 + (rand k - 1/2) * (1/10)
              let lo : ℚ := 1215654 / 10000 + (rand (k+1) - 1/2) * (1/10)
              (some (mkRec (JSVal.num lo) (JSVal.num la)), k + 2)
  | _ => (none, k)

/-- Row loop of `processRealEstateData`, threading the random-oracle
index. -/
def runRED (opts : Filters) (rand : Nat → ℚ) : List Row → Nat → List Record × Nat
  | [], _ => ([], 0)
  | r :: rs, k =>
    match processREDRow opts rand k r with
    | (some rec, next) =>
      let rest := runRED opts rand rs next
      (rec :: rest.1, rest.2)
    | (none, next) =>
      let rest := runRED opts rand rs next
      (rest.1, rest.2 + 1)

/-- Source `processRealEstateData` (data-processor.js), starting at
random-oracle index zero. -/
def processRealEstateData (opts : Filters) (rand : Nat → ℚ) (records : List Row) :
    List Record × Nat :=
  runRED opts rand records 0

/-- Shape test for a canonical year-month on a stored record field: a
string of exactly four digits, a dash and two digits. -/
def canonicalYM : List Char → Bool
  | [a, b, c, d, e, f, g] =>
    a.isDigit && b.isDigit && c.isDigit && d.isDigit &&
      (e == '-') && f.isDigit && g.isDigit
  | _ => false

/-- Canonical-pattern test on a record's year-month field: `undefined`/null
and non-string values never match. -/
def isCanonicalYM : Option DVal → Bool
  | some (DVal.v (JSVal.str l)) => canonicalYM l
  | _ => false

/-- Modelled from the spec: the Field Alias Set is described as matching
source key names case-insensitively, so this resolver compares keys after
lower-casing both sides; it exists only to be compared against the source's
`getValue`, which uses plain property access. -/
def getValueCI (record : Row) : List String → Option JSVal
  | [] => none
  | name :: rest =>
    match (record.find? (fun kv => kv.1.toLower = name.toLower)).map Prod.snd with
    | some v =>
      if v = JSVal.nullv ∨ v = JSVal.str [] then getValueCI record rest else some v
    | none => getValueCI record rest

/-- Usability test behind `getValue`: the alias has a binding that is
neither null nor the empty string. -/
def usableAt (record : Row) (name : String) : Bool :=
  match lookupRow record name with
  | some v => !(v == JSVal.nullv || v == JSVal.str [])
  | none => false

/-- Row with a direct numeric price, nonzero coordinates and a Gregorian
year-month, used for boundary checks on the CSV adapter. -/
def boundaryRow (p : ℚ) : Row :=
  [("price", JSVal.num p), ("latitude", JSVal.num 25),
   ("longitude", JSVal.num 121), ("yearMonth", jstr "2023-01")]

/-- Record the CSV adapter emits for `boundaryRow p`. -/
def boundaryRec (p : ℚ) : Record where
  position := [JSVal.num 121, JSVal.num 25]
  price := DVal.v (JSVal.num p)
  yearMonth := some (DVal.v (JSVal.str "2023-01".data))
  area := DVal.v (JSVal.num 0)
  address := DVal.v (JSVal.str [])
  buildingType := some (DVal.v (JSVal.str []))
  totalPrice := DVal.v (JSVal.num 0)

/-- Document row whose price is the non-numeric string `abc`. -/
def docAbcRow : DocRow :=
  [("position", DVal.arr [JSVal.num 121, JSVal.num 25]),
   ("price", DVal.v (jstr "abc")), ("yearMonth", DVal.v (jstr "2023-01"))]

/-- Record the document adapter emits for `docAbcRow`. -/
def docAbcRec : Record where
  position := [JSVal.num 121, JSVal.num 25]
  price := DVal.v (jstr "abc")
  yearMonth := some (DVal.v (JSVal.str "2023-01".data))
  area := DVal.v (JSVal.num 0)
  address := DVal.v (JSVal.str [])
  buildingType := some (DVal.v (JSVal.str []))
  totalPrice := DVal.v (JSVal.num 0)

/-- Row whose raw date is the compact era form `11201` and whose price and
coordinates are otherwise valid. -/
def row11201 : Row :=
  [("交易年月", jstr "11201"), ("單價", jstr "500000"),
   ("緯度", jstr "25.03"), ("經度", jstr "121.5")]

/-- Row with no direct unit-price field, total price 24225000 and area
28.5. -/
def deriveRow : Row :=
  [("總價元", jstr "24225000"), ("建物移轉總面積坪", jstr "28.5")]

/-- The same row completed with a valid date and coordinates. -/
def deriveRowFull : Row :=
  [("交易年月", jstr "2023-01"), ("總價元", jstr "24225000"),
   ("建物移轉總面積坪", jstr "28.5"), ("緯度", jstr "25.03"), ("經度", jstr "121.5")]

/-- The record the CSV adapter emits for `deriveRowFull`. -/
def deriveRec : Record where
  position := [JSVal.num (121.5 : ℚ), JSVal.num (25.03 : ℚ)]
  price := DVal.v (JSVal.num 850000)
  yearMonth := some (DVal.v (JSVal.str "2023-01".data))
  area := DVal.v (JSVal.num (28.5 : ℚ))
  address := DVal.v (JSVal.str [])
  buildingType := some (DVal.v (JSVal.str []))
  totalPrice := DVal.v (JSVal.num 24225000)

/-- Like `deriveRowFull` but with area zero. -/
def areaZeroRowFull : Row :=
  [("交易年月", jstr "2023-01"), ("總價元", jstr "24225000"),
   ("建物移轉總面積坪", jstr "0"), ("緯度", jstr "25.03"), ("經度", jstr "121.5")]

/-- First end-to-end row of the C5 example (valid coordinates). -/
def endRow1 : Row :=
  [("longitude", JSVal.num (121.5435 : ℚ)), ("latitude", JSVal.num (25.0267 : ℚ)),
   ("price", JSVal.num 850000), ("yearMonth", jstr "2023-01")]

/-- Second end-to-end row of the C5 example (zero coordinates). -/
def endRow2 : Row :=
  [("longitude", JSVal.num 0), ("latitude", JSVal.num 0),
   ("price", JSVal.num 720000), ("yearMonth", jstr "2023-01")]

/-- The record the CSV adapter emits for `endRow1`. -/
def endRec1 : Record where
  position := [JSVal.num (121.5435 : ℚ), JSVal.num (25.0267 : ℚ)]
  price := DVal.v (JSVal.num 850000)
  yearMonth := some (DVal.v (JSVal.str "2023-01".data))
  area := DVal.v (JSVal.num 0)
  address := DVal.v (JSVal.str [])
  buildingType := some (DVal.v (JSVal.str []))
  totalPrice := DVal.v (JSVal.num 0)

/-- Row whose raw date contains 年 but matches neither era regular
expression, with valid price and coordinates. -/
def csvNullYMRow : Row :=
  [("交易年月", jstr "年"), ("單價", jstr "500000"),
   ("緯度", jstr "25.03"), ("經度", jstr "121.5")]

/-- Record the CSV adapter emits for `csvNullYMRow`: its year-month is the
`null` that `convertROCtoAD` returned. -/
def csvNullYMRec : Record where
  position := [JSVal.num (121.5 : ℚ), JSVal.num (25.03 : ℚ)]
  price := DVal.v (JSVal.num 500000)
  yearMonth := none
  area := DVal.v (JSVal.num 0)
  address := DVal.v (JSVal.str [])
  buildingType := some (DVal.v (JSVal.str []))
  totalPrice := DVal.v (JSVal.num 0)

/-- Relational row whose `year_month` column holds an arbitrary string. -/
def dbBananaRow : Row :=
  [("unit_price", JSVal.num 500000), ("latitude", JSVal.num 25),
   ("longitude", JSVal.num 121), ("year_month", jstr "banana")]

/-- Record the relational adapter emits for `dbBananaRow`: `year_month` is
passed through without any shape check. -/
def dbBananaRec : Record where
  position := [JSVal.num 121, JSVal.num 25]
  price := DVal.v (JSVal.num 500000)
  yearMonth := some (DVal.v (jstr "banana"))
  area := DVal.v (JSVal.num 0)
  address := DVal.v (JSVal.str [])
  buildingType := some (DVal.v (JSVal.str []))
  totalPrice := DVal.v (JSVal.num 0)

/-- Document row whose two-element position holds strings. -/
def docPosStrRow : DocRow :=
  [("position", DVal.arr [jstr "a", jstr "b"]),
   ("price", DVal.v (JSVal.num 500000)), ("yearMonth", DVal.v (jstr "2023-01"))]

/-- Record the document adapter emits for `docPosStrRow`. -/
def docPosStrRec : Record where
  position := [jstr "a", jstr "b"]
  price := DVal.v (JSVal.num 500000)
  yearMonth := some (DVal.v (JSVal.str "2023-01".data))
  area := DVal.v (JSVal.num 0)
  address := DVal.v (JSVal.str [])
  buildingType := some (DVal.v (JSVal.str []))
  totalPrice := DVal.v (JSVal.num 0)

/-- Legacy-processor row with a valid era date and price but no coordinate
fields, forcing the geocode fallback. -/
def redNoCoordRow : Row :=
  [("交易年月", jstr "112年01月"), ("單價", jstr "500000")]

/-- Legacy-processor row that carries both coordinate fields. -/
def redCoordRow : Row :=
  [("交易年月", jstr "112年01月"), ("單價", jstr "500000"),
   ("緯度", jstr "25.03"), ("經度", jstr "121.5")]

theorem runRows_length {α : Type} (f : α → Option Record) (rows : List α) :
    (runRows f rows).1.length + (runRows f rows).2 = rows.length := by
  induction rows with
  | nil => rfl
  | cons r rs ih =>
    simp only [runRows]
    cases f r <;> simp <;> omega

theorem mem_runRows {α : Type} {f : α → Option Record} {rows : List α} {rec : Record}
    (h : rec ∈ (runRows f rows).1) : ∃ r ∈ rows, f r = some rec := by
  induction rows with
  | nil => simp [runRows] at h
  | cons r rs ih =>
    simp only [runRows] at h
    cases hf : f r with
    | none =>
      rw [hf] at h
      obtain ⟨x, hx, he⟩ := ih h
      exact ⟨x, List.mem_cons_of_mem _ hx, he⟩
    | some rec2 =>
      rw [hf] at h
      rcases List.mem_cons.mp h with h1 | h2
      · exact ⟨r, List.mem_cons_self r rs, by rw [hf, h1]⟩
      · obtain ⟨x, hx, he⟩ := ih h2
        exact ⟨x, List.mem_cons_of_mem _ hx, he⟩

theorem processCSVRow_inv {opts : CSVOptions} {record : Row} {rec : Record}
    (h : processCSVRow opts record = some rec) :
    ∃ p la lo,
      derivePriceCSV opts.fieldMapping record = some p ∧
      ¬ (p = 0 ∨ p < opts.minPrice ∨ opts.maxPrice < p) ∧
      jsParseFloat (getValue record opts.fieldMapping.latitude) = some la ∧
      jsParseFloat (getValue record opts.fieldMapping.longitude) = some lo ∧
      ¬ (la = 0 ∨ lo = 0) ∧
      rec.position = [JSVal.num lo, JSVal.num la] ∧
      rec.price = DVal.v (JSVal.num p) := by
  simp only [processCSVRow] at h
  split at h
  · exact absurd h (by simp)
  · split at h
    · exact absurd h (by simp)
    · split at h
      · exact absurd h (by simp)
      · split at h
        · split at h
          · exact absurd h (by simp)
          · split at h
            · exact absurd h (by simp)
            · simp only [Option.some.injEq] at h
              rw [← h]
              exact ⟨_, _, _, by assumption, by assumption, by assumption, by assumption,
                by assumption, rfl, rfl⟩
        · exact absurd h (by simp)

theorem processDatabaseRow_inv {opts : Filters} {record : Row} {rec : Record}
    (h : processDatabaseRow opts record = some rec) :
    ∃ p la lo,
      jsParseFloat (jsOrOpt (lookupRow record "unit_price") (lookupRow record "price")) = some p ∧
      ¬ (p = 0 ∨ p < opts.minPrice ∨ opts.maxPrice < p) ∧
      jsParseFloat (jsOrOpt (lookupRow record "latitude") (lookupRow record "lat")) = some la ∧
      jsParseFloat (jsOrOpt (lookupRow record "longitude")
        (jsOrOpt (lookupRow record "lng") (lookupRow record "lon"))) = some lo ∧
      ¬ (la = 0 ∨ lo = 0) ∧
      rec.position = [JSVal.num lo, JSVal.num la] ∧
      rec.price = DVal.v (JSVal.num p) := by
  simp only [processDatabaseRow] at h
  split at h
  · exact absurd h (by simp)
  · split at h
    · exact absurd h (by simp)
    · split at h
      · split at h
        · exact absurd h (by simp)
        · split at h
          · exact absurd h (by simp)
          · simp only [Option.some.injEq] at h
            rw [← h]
            exact ⟨_, _, _, by assumption, by assumption, by assumption, by assumption,
              by assumption, rfl, rfl⟩
      · exact absurd h (by simp)

theorem validateRow_inv {opts : Filters} {item : DocRow} {rec : Record}
    (h : validateRow opts item = some rec) :
    ∃ l pv,
      lookupRow item "position" = some (DVal.arr l) ∧ l.length = 2 ∧
      lookupRow item "price" = some pv ∧
      dLt pv opts.minPrice = false ∧ dGt pv opts.maxPrice = false ∧
      rec.position = l ∧ rec.price = pv := by
  simp only [validateRow] at h
  split at h
  case h_2 => exact absurd h (by simp)
  case h_1 l hpos =>
    split at h
    case isTrue => exact absurd h (by simp)
    case isFalse hlen =>
      split at h
      case h_2 => exact absurd h (by simp)
      case h_1 pv yv hp hy =>
        split at h
        case isTrue => exact absurd h (by simp)
        case isFalse htr =>
          split at h
          case isTrue => exact absurd h (by simp)
          case isFalse hbound =>
            split at h
            case isTrue => exact absurd h (by simp)
            case isFalse hbt =>
              simp only [Option.some.injEq] at h
              rw [not_or] at hbound
              refine ⟨l, pv, hpos, by omega, hp,
                by simpa using hbound.1, by simpa using hbound.2, ?_, ?_⟩ <;> rw [← h]

theorem processCSVRow_badCoords {opts : CSVOptions} {record : Row}
    (h : numTruthy (jsParseFloat (getValue record opts.fieldMapping.latitude)) = false ∨
         numTruthy (jsParseFloat (getValue record opts.fieldMapping.longitude)) = false) :
    processCSVRow opts record = none := by
  simp only [processCSVRow]
  split
  · rfl
  · split
    · rfl
    · split
      · rfl
      · split
        case h_1 la lo hla hlo =>
          rw [hla, hlo] at h
          simp only [numTruthy, decide_eq_false_iff_not, not_not] at h
          rw [if_pos h]
        case h_2 => rfl

theorem processDatabaseRow_badCoords {opts : Filters} {record : Row}
    (h : numTruthy (jsParseFloat (jsOrOpt (lookupRow record "latitude")
           (lookupRow record "lat"))) = false ∨
         numTruthy (jsParseFloat (jsOrOpt (lookupRow record "longitude")
           (jsOrOpt (lookupRow record "lng") (lookupRow record "lon")))) = false) :
    processDatabaseRow opts record = none := by
  simp only [processDatabaseRow]
  split
  · rfl
  · split
    · rfl
    · split
      case h_1 la lo hla hlo =>
        rw [hla, hlo] at h
        simp only [numTruthy, decide_eq_false_iff_not, not_not] at h
        rw [if_pos h]
      case h_2 => rfl

theorem processCSVRow_minGtMax {opts : CSVOptions} {record : Row}
    (h : opts.maxPrice < opts.minPrice) : processCSVRow opts record = none := by
  simp only [processCSVRow]
  split
  · rfl
  · split
    · rfl
    case h_2 p hp =>
      rw [if_pos]
      rcases lt_or_le p opts.minPrice with hlt | hge
      · exact Or.inr (Or.inl hlt)
      · exact Or.inr (Or.inr (lt_of_lt_of_le h hge))

theorem processDatabaseRow_minGtMax {opts : Filters} {record : Row}
    (h : opts.maxPrice < opts.minPrice) : processDatabaseRow opts record = none := by
  simp only [processDatabaseRow]
  split
  · rfl
  case h_2 p hp =>
    rw [if_pos]
    rcases lt_or_le p opts.minPrice with hlt | hge
    · exact Or.inr (Or.inl hlt)
    · exact Or.inr (Or.inr (lt_of_lt_of_le h hge))

theorem validateRow_minGtMax {opts : Filters} {item : DocRow}
    (hmm : opts.maxPrice < opts.minPrice)
    (hq : ∀ v, lookupRow item "price" = some v → ∃ q, jsToNumberD v = some q) :
    validateRow opts item = none := by
  simp only [validateRow]
  split
  case h_2 => rfl
  case h_1 l hpos =>
    split
    case isTrue => rfl
    case isFalse hlen =>
      split
      case h_2 => rfl
      case h_1 pv yv hp hy =>
        split
        case isTrue => rfl
        case isFalse htr =>
          obtain ⟨q, hq'⟩ := hq pv hp
          have hcond : dLt pv opts.minPrice = true ∨ dGt pv opts.maxPrice = true := by
            simp only [dLt, dGt, hq', decide_eq_true_eq]
            rcases lt_or_le q opts.minPrice with hlt | hge
            · exact Or.inl hlt
            · exact Or.inr (lt_of_lt_of_le hmm hge)
          rw [if_pos hcond]

theorem processCSVRow_dateSkip {opts : CSVOptions} {record : Row}
    (h : dateStage (getValue record opts.fieldMapping.yearMonth) = none) :
    processCSVRow opts record = none := by
  simp only [processCSVRow, h]

theorem matchYM_take7 {s : List Char} (h : matchYM s = true) :
    canonicalYM (s.take 7) = true := by
  unfold matchYM at h
  split at h
  case h_1 a b c d e f g t =>
    simpa [canonicalYM, List.take] using h
  case h_2 => simp at h

theorem processCSVRow_gregorian {opts : CSVOptions} {record : Row} {rec : Record}
    {s : List Char}
    (h : processCSVRow opts record = some rec)
    (hs : getValue record opts.fieldMapping.yearMonth = some (JSVal.str s))
    (hn : s.contains '年' = false) :
    isCanonicalYM rec.yearMonth = true := by
  simp only [processCSVRow, hs, dateStage, hn, Bool.false_eq_true, if_false] at h
  by_cases hmy : matchYM s = true
  · rw [if_pos hmy] at h
    dsimp only [] at h
    split at h
    · exact absurd h (by simp)
    · split at h
      · exact absurd h (by simp)
      · split at h
        · split at h
          · exact absurd h (by simp)
          · split at h
            · exact absurd h (by simp)
            · simp only [Option.some.injEq] at h
              rw [← h]
              simpa [isCanonicalYM] using matchYM_take7 hmy
        · exact absurd h (by simp)
  · rw [if_neg hmy] at h
    exact absurd h (by simp)

theorem getValue_eq_find {record : Row} (names : List String) :
    getValue record names =
      (names.find? (usableAt record)).bind (lookupRow record) := by
  induction names with
  | nil => rfl
  | cons n rest ih =>
    cases hl : lookupRow record n with
    | none =>
      have hu : usableAt record n = false := by simp [usableAt, hl]
      simp [getValue, List.find?, hl, hu, ih]
    | some v =>
      by_cases hv : v = JSVal.nullv ∨ v = JSVal.str []
      · have hu : usableAt record n = false := by
          rcases hv with h | h <;> simp [usableAt, hl, h]
        simp [getValue, List.find?, hl, hu, hv, ih]
      · have hu : usableAt record n = true := by
          push_neg at hv
          simp [usableAt, hl, hv.1, hv.2]
        simp [getValue, List.find?, hl, hu, hv]

theorem processREDRow_coordsPresent {opts : Filters} {record : Row}
    (h1 : truthyOpt (lookupRow record "緯度") = true)
    (h2 : truthyOpt (lookupRow record "經度") = true)
    (rand1 rand2 : Nat → ℚ) (k1 k2 : Nat) :
    (processREDRow opts rand1 k1 record).1 = (processREDRow opts rand2 k2 record).1 ∧
    (processREDRow opts rand1 k1 record).2 = k1 := by
  simp only [processREDRow]
  split
  case h_2 => exact ⟨rfl, rfl⟩
  case h_1 s hsrc =>
    split
    · exact ⟨rfl, rfl⟩
    · split
      · exact ⟨rfl, rfl⟩
      · split
        · exact ⟨rfl, rfl⟩
        · split
          · exact ⟨rfl, rfl⟩
          · rw [h1, h2]
            simp

theorem runRED_coordsPresent {opts : Filters} {rows : List Row}
    (h : ∀ r ∈ rows, truthyOpt (lookupRow r "緯度") = true ∧
         truthyOpt (lookupRow r "經度") = true)
    (rand1 rand2 : Nat → ℚ) (k1 k2 : Nat) :
    runRED opts rand1 rows k1 = runRED opts rand2 rows k2 := by
  induction rows generalizing k1 k2 with
  | nil => rfl
  | cons r rs ih =>
    obtain ⟨hr1, hr2⟩ := h r (List.mem_cons_self r rs)
    have hrest := fun x hx => h x (List.mem_cons_of_mem r hx)
    have heqA := @processREDRow_coordsPresent opts r hr1 hr2 rand1 rand2 k1 k2
    have heqB := @processREDRow_coordsPresent opts r hr1 hr2 rand2 rand2 k2 k2
    simp only [runRED]
    rcases hA : processREDRow opts rand1 k1 r with ⟨o1, n1⟩
    rcases hB : processREDRow opts rand2 k2 r with ⟨o2, n2⟩
    rw [hA, hB] at heqA
    rw [hB] at heqB
    simp only at heqA heqB
    have ho : o1 = o2 := heqA.1
    have hn1 : n1 = k1 := heqA.2
    have hn2 : n2 = k2 := heqB.2
    subst ho hn1 hn2
    cases o1 <;> simp [ih hrest n1 n2]

/-- C1 counterexample: the document adapter, with the default bounds, emits
a record whose price is the non-numeric truthy string `abc` verbatim — it
coerces to NaN, so both bound comparisons are false and the record's price
lies in no numeric interval at all. -/
theorem claim1_price_cx :
    validateAndProcessData defaultFilters [docAbcRow] = ([docAbcRec], 0) ∧
    docAbcRec.price = DVal.v (jstr "abc") ∧
    jsToNumberD docAbcRec.price = none := by
  refine ⟨?_, ?_, ?_⟩ <;> with_unfolding_all rfl

/-- C1 (amended): every record emitted by the CSV-shaped or relational
adapter carries a numeric price inside the inclusive caller bounds, and a
document-adapter record's price lies inside the bounds whenever it coerces
to a number; the boundary rows at exactly `minPrice` and exactly `maxPrice`
are accepted while rows one unit outside either bound are rejected. -/
theorem claim1_price_bounds :
    (∀ (opts : CSVOptions) (rows : List Row) (rec : Record),
        rec ∈ (processCSVRecords opts rows).1 →
        ∃ q, rec.price = DVal.v (JSVal.num q) ∧
          opts.minPrice ≤ q ∧ q ≤ opts.maxPrice) ∧
    (∀ (opts : Filters) (rows : List Row) (rec : Record),
        rec ∈ (processDatabaseRecords opts rows).1 →
        ∃ q, rec.price = DVal.v (JSVal.num q) ∧
          opts.minPrice ≤ q ∧ q ≤ opts.maxPrice) ∧
    (∀ (opts : Filters) (data : List DocRow) (rec : Record) (q : ℚ),
        rec ∈ (validateAndProcessData opts data).1 →
        jsToNumberD rec.price = some q →
        opts.minPrice ≤ q ∧ q ≤ opts.maxPrice) ∧
    processCSVRecords defaultCSVOptions [boundaryRow 100000] = ([boundaryRec 100000], 0) ∧
    processCSVRecords defaultCSVOptions [boundaryRow 2000000] = ([boundaryRec 2000000], 0) ∧
    processCSVRecords defaultCSVOptions [boundaryRow 99999] = ([], 1) ∧
    processCSVRecords defaultCSVOptions [boundaryRow 2000001] = ([], 1) := by
  refine ⟨?_, ?_, ?_, ?_, ?_, ?_, ?_⟩
  · intro opts rows rec hmem
    obtain ⟨r, _, hr⟩ := mem_runRows hmem
    obtain ⟨p, la, lo, _, hbound, _, _, _, _, hprice⟩ := processCSVRow_inv hr
    push_neg at hbound
    exact ⟨p, hprice, hbound.2.1, hbound.2.2⟩
  · intro opts rows rec hmem
    obtain ⟨r, _, hr⟩ := mem_runRows hmem
    obtain ⟨p, la, lo, _, hbound, _, _, _, _, hprice⟩ := processDatabaseRow_inv hr
    push_neg at hbound
    exact ⟨p, hprice, hbound.2.1, hbound.2.2⟩
  · intro opts data rec q hmem hq
    obtain ⟨r, _, hr⟩ := mem_runRows hmem
    obtain ⟨l, pv, _, _, _, hlt, hgt, _, hprice⟩ := validateRow_inv hr
    rw [hprice] at hq
    simp only [dLt, dGt, hq, decide_eq_false_iff_not, not_lt] at hlt hgt
    exact ⟨hlt, hgt⟩
  · with_unfolding_all rfl
  · with_unfolding_all rfl
  · with_unfolding_all rfl
  · with_unfolding_all rfl

/-- C1 witness: the boundary row at exactly the default `minPrice` is
emitted with its numeric price inside the default bounds. -/
theorem claim1_price_bounds_witness :
    ∃ q, (boundaryRec 100000).price = DVal.v (JSVal.num q) ∧
      defaultCSVOptions.minPrice ≤ q ∧ q ≤ defaultCSVOptions.maxPrice :=
  claim1_price_bounds.1 defaultCSVOptions [boundaryRow 100000] (boundaryRec 100000)
    (by with_unfolding_all exact List.Mem.head [])

/-- C2 counterexample: a fully valid row whose raw date is `11201` is
skipped by the CSV adapter (its date stage recognizes only the 年 form and
the Gregorian prefix), even though `convertROCtoAD` itself maps `11201` to
`2023-01`; conversely `convertROCtoAD`, the only stage that accepts
`11201`, fails on `2023-01-15`.  No single date-conversion stage accepts
all three claimed shapes. -/
theorem claim2_date_cx :
    processCSVRecords defaultCSVOptions [row11201] = ([], 1) ∧
    convertROCtoAD "11201".data = some "2023-01".data ∧
    convertROCtoAD "2023-01-15".data = none := by
  refine ⟨?_, ?_, ?_⟩ <;> with_unfolding_all rfl

/-- C2 (amended): the CSV adapter's date stage tries the 年 era form and
then the Gregorian prefix — `112年01月` and `2023-01-15` normalize to
`2023-01` while `11201` skips the row; `convertROCtoAD` (used directly by
the legacy processor) tries the long era form then the compact five-digit
form — `112年01月` and `11201` map to `2023-01` while `2023-01-15` fails;
and a raw date the date stage does not recognize always skips the row. -/
theorem claim2_date_shapes :
    dateStage (some (jstr "112年01月")) = some (some "2023-01".data) ∧
    dateStage (some (jstr "2023-01-15")) = some (some "2023-01".data) ∧
    dateStage (some (jstr "11201")) = none ∧
    convertROCtoAD "112年01月".data = some "2023-01".data ∧
    convertROCtoAD "11201".data = some "2023-01".data ∧
    convertROCtoAD "2023-01-15".data = none ∧
    (∀ (opts : CSVOptions) (record : Row),
        dateStage (getValue record opts.fieldMapping.yearMonth) = none →
        processCSVRow opts record = none) := by
  refine ⟨?_, ?_, ?_, ?_, ?_, ?_, fun opts record h => processCSVRow_dateSkip h⟩ <;>
    with_unfolding_all rfl

/-- C2 witness: a row whose raw date matches no recognized shape is
skipped by the CSV adapter. -/
theorem claim2_date_shapes_witness :
    processCSVRow defaultCSVOptions [("交易年月", jstr "nope")] = none :=
  claim2_date_shapes.2.2.2.2.2.2 defaultCSVOptions [("交易年月", jstr "nope")]
    (by with_unfolding_all rfl)

/-- C3 counterexample: alias matching is the plain property access
`record[name]`, which is case-sensitive — a row whose only key is `PRICE`
does not resolve under the alias `price`, while the spec-modelled
case-insensitive resolver does resolve it. -/
theorem claim3_resolver_cx :
    getValue [("PRICE", JSVal.num 5)] ["price"] = none ∧
    getValueCI [("PRICE", JSVal.num 5)] ["price"] = some (JSVal.num 5) := by
  exact ⟨by with_unfolding_all rfl, by with_unfolding_all rfl⟩

/-- C3 (amended): the resolver walks the alias list in order and returns
the value of the first alias whose key — matched exactly (case-sensitively)
against the row's keys — is present with a value that is not null and not
the empty string; when no alias is usable it returns the `null` sentinel
(`none`, distinct from any value, in particular from zero and the empty
string); and for a row with both 單價 = 850000 and price = 1 under the
default price alias order the resolved value is 850000. -/
theorem claim3_resolver :
    (∀ (record : Row) (names : List String),
        getValue record names =
          (names.find? (usableAt record)).bind (lookupRow record)) ∧
    (∀ (record : Row) (names : List String),
        (∀ n ∈ names, usableAt record n = false) → getValue record names = none) ∧
    getValue [("單價", JSVal.num 850000), ("price", JSVal.num 1)]
      defaultMapping.price = some (JSVal.num 850000) := by
  refine ⟨fun record names => getValue_eq_find names, ?_, by with_unfolding_all rfl⟩
  intro record names h
  rw [getValue_eq_find]
  have : names.find? (usableAt record) = none :=
    List.find?_eq_none.mpr (fun n hn => by simp [h n hn])
  rw [this]
  rfl

/-- C3 witness: on a row where no alias is usable the resolver returns the
sentinel. -/
theorem claim3_resolver_witness :
    getValue [("price", JSVal.str [])] ["price"] = none :=
  claim3_resolver.2.1 [("price", JSVal.str [])] ["price"]
    (by intro n hn; with_unfolding_all simp at hn; rw [hn]; with_unfolding_all rfl)

/-- C6: each adapter accounts for every input row exactly once — the
length of the returned record sequence plus the skipped counter equals the
number of input rows, for the CSV-shaped, relational and document-shaped
adapters alike (per-row failures are caught and counted, never raised). -/
theorem claim6_row_accounting :
    (∀ (opts : CSVOptions) (rows : List Row),
        (processCSVRecords opts rows).1.length + (processCSVRecords opts rows).2
          = rows.length) ∧
    (∀ (opts : Filters) (rows : List Row),
        (processDatabaseRecords opts rows).1.length + (processDatabaseRecords opts rows).2
          = rows.length) ∧
    (∀ (opts : Filters) (data : List DocRow),
        (validateAndProcessData opts data).1.length + (validateAndProcessData opts data).2
          = data.length) :=
  ⟨fun opts rows => runRows_length (processCSVRow opts) rows,
   fun opts rows => runRows_length (processDatabaseRow opts) rows,
   fun opts data => runRows_length (validateRow opts) data⟩

/-- C4: price derivation uses the direct unit-price field when it parses to
a truthy (non-zero, non-NaN) number, falls back to total price over area
only when the direct value is falsy and both total price and area are
strictly positive, and keeps the falsy direct value (so the row is
rejected) when the area is not strictly positive; concretely, total price
24225000 with area 28.5 derives exactly 850000 and the full row is
emitted, while the same total price with area 0 is a derivation failure
and the row is skipped rather than divided by zero. -/
theorem claim4_price_derivation :
    (∀ (m : FieldMapping) (record : Row),
        numTruthy (jsParseFloat (getValue record m.price)) = true →
        derivePriceCSV m record = jsParseFloat (getValue record m.price)) ∧
    (∀ (m : FieldMapping) (record : Row),
        numTruthy (jsParseFloat (getValue record m.price)) = false →
        0 < orZero (jsParseFloat (getValue record m.totalPrice)) →
        0 < orZero (jsParseFloat (getValue record m.area)) →
        derivePriceCSV m record =
          some (orZero (jsParseFloat (getValue record m.totalPrice)) /
            orZero (jsParseFloat (getValue record m.area)))) ∧
    (∀ (m : FieldMapping) (record : Row),
        numTruthy (jsParseFloat (getValue record m.price)) = false →
        ¬ 0 < orZero (jsParseFloat (getValue record m.area)) →
        derivePriceCSV m record = jsParseFloat (getValue record m.price)) ∧
    derivePriceCSV defaultMapping deriveRow = some 850000 ∧
    processCSVRecords defaultCSVOptions [deriveRowFull] = ([deriveRec], 0) ∧
    derivePriceCSV defaultMapping areaZeroRowFull = none ∧
    processCSVRecords defaultCSVOptions [areaZeroRowFull] = ([], 1) := by
  refine ⟨?_, ?_, ?_, ?_, ?_, ?_, ?_⟩
  · intro m record h
    simp [derivePriceCSV, h]
  · intro m record h ht ha
    simp [derivePriceCSV, h, ht, ha]
  · intro m record h ha
    have : ¬ (0 < orZero (jsParseFloat (getValue record m.totalPrice)) ∧
        0 < orZero (jsParseFloat (getValue record m.area))) := fun hc => ha hc.2
    simp [derivePriceCSV, h, this]
  · with_unfolding_all rfl
  · with_unfolding_all rfl
  · with_unfolding_all rfl
  · with_unfolding_all rfl

/-- C4 witness: a row with a truthy direct unit price derives exactly that
direct value. -/
theorem claim4_price_derivation_witness :
    derivePriceCSV defaultMapping [("單價", jstr "500000")] =
      jsParseFloat (getValue [("單價", jstr "500000")] defaultMapping.price) :=
  claim4_price_derivation.1 defaultMapping [("單價", jstr "500000")]
    (by with_unfolding_all rfl)

/-- C5: in the CSV-shaped and relational adapters a row whose resolved
latitude or longitude is absent, unparsable (NaN) or exactly zero is
rejected (the truthiness test `!lat || !lng` fails precisely then), and
the end-to-end example emits exactly the first record and counts the
zero-coordinate row as the single skip. -/
theorem claim5_zero_coords :
    (∀ (opts : CSVOptions) (record : Row),
        numTruthy (jsParseFloat (getValue record opts.fieldMapping.latitude)) = false ∨
        numTruthy (jsParseFloat (getValue record opts.fieldMapping.longitude)) = false →
        processCSVRow opts record = none) ∧
    (∀ (opts : Filters) (record : Row),
        numTruthy (jsParseFloat (jsOrOpt (lookupRow record "latitude")
          (lookupRow record "lat"))) = false ∨
        numTruthy (jsParseFloat (jsOrOpt (lookupRow record "longitude")
          (jsOrOpt (lookupRow record "lng") (lookupRow record "lon")))) = false →
        processDatabaseRow opts record = none) ∧
    processCSVRecords defaultCSVOptions [endRow1, endRow2] = ([endRec1], 1) := by
  refine ⟨fun opts record h => processCSVRow_badCoords h,
    fun opts record h => processDatabaseRow_badCoords h, ?_⟩
  with_unfolding_all rfl

/-- C5 witness: the zero-coordinate row of the end-to-end example is
rejected by the CSV adapter. -/
theorem claim5_zero_coords_witness :
    processCSVRow defaultCSVOptions endRow2 = none :=
  claim5_zero_coords.1 defaultCSVOptions endRow2
    (Or.inl (by with_unfolding_all rfl))

/-- C7 counterexample: the CSV adapter's 年-branch does not re-check the
`convertROCtoAD` result, so a raw date containing 年 that matches neither
era pattern is emitted with a null year-month; and the relational adapter
passes an arbitrary `year_month` string (here `banana`) through unchecked.
Both emitted records violate the canonical `YYYY-MM` pattern. -/
theorem claim7_ym_cx :
    processCSVRecords defaultCSVOptions [csvNullYMRow] = ([csvNullYMRec], 0) ∧
    isCanonicalYM csvNullYMRec.yearMonth = false ∧
    processDatabaseRecords defaultFilters [dbBananaRow] = ([dbBananaRec], 0) ∧
    isCanonicalYM dbBananaRec.yearMonth = false := by
  refine ⟨?_, ?_, ?_, ?_⟩ <;> with_unfolding_all rfl

/-- C7 (amended): a record the CSV-shaped adapter emits from a raw date
that took the Gregorian-prefix branch (a string without 年 matching
`^\d{4}-\d{2}`) always has a year-month matching the canonical `YYYY-MM`
pattern; the 年-branch and the other two adapters do not enforce the
pattern. -/
theorem claim7_gregorian_canonical :
    ∀ (opts : CSVOptions) (record : Row) (rec : Record) (s : List Char),
      processCSVRow opts record = some rec →
      getValue record opts.fieldMapping.yearMonth = some (JSVal.str s) →
      s.contains '年' = false →
      isCanonicalYM rec.yearMonth = true :=
  fun _ _ _ _ h hs hn => processCSVRow_gregorian h hs hn

/-- C7 witness: the boundary row's Gregorian date yields a canonical
year-month in the emitted record. -/
theorem claim7_gregorian_canonical_witness :
    isCanonicalYM (boundaryRec 100000).yearMonth = true :=
  claim7_gregorian_canonical defaultCSVOptions (boundaryRow 100000)
    (boundaryRec 100000) "2023-01".data
    (by with_unfolding_all rfl) (by with_unfolding_all rfl) (by with_unfolding_all rfl)

/-- C8 counterexample: the document adapter checks only that `position` is
a two-element array, so a record whose position entries are the strings
`a` and `b` — not finite numbers — is emitted. -/
theorem claim8_position_cx :
    validateAndProcessData defaultFilters [docPosStrRow] = ([docPosStrRec], 0) ∧
    docPosStrRec.position = [jstr "a", jstr "b"] := by
  exact ⟨by with_unfolding_all rfl, by with_unfolding_all rfl⟩

/-- C8 (amended): the CSV-shaped and relational adapters emit `position`
as an ordered pair of exactly two nonzero numbers (longitude then
latitude, both parsed successfully); the document adapter guarantees only
that `position` is a two-element array, whose entries need not be
numbers. -/
theorem claim8_position :
    (∀ (opts : CSVOptions) (rows : List Row) (rec : Record),
        rec ∈ (processCSVRecords opts rows).1 →
        ∃ lo la : ℚ, rec.position = [JSVal.num lo, JSVal.num la] ∧ lo ≠ 0 ∧ la ≠ 0) ∧
    (∀ (opts : Filters) (rows : List Row) (rec : Record),
        rec ∈ (processDatabaseRecords opts rows).1 →
        ∃ lo la : ℚ, rec.position = [JSVal.num lo, JSVal.num la] ∧ lo ≠ 0 ∧ la ≠ 0) ∧
    (∀ (opts : Filters) (data : List DocRow) (rec : Record),
        rec ∈ (validateAndProcessData opts data).1 → rec.position.length = 2) := by
  refine ⟨?_, ?_, ?_⟩
  · intro opts rows rec hmem
    obtain ⟨r, _, hr⟩ := mem_runRows hmem
    obtain ⟨p, la, lo, _, _, _, _, hzero, hpos, _⟩ := processCSVRow_inv hr
    push_neg at hzero
    exact ⟨lo, la, hpos, hzero.2, hzero.1⟩
  · intro opts rows rec hmem
    obtain ⟨r, _, hr⟩ := mem_runRows hmem
    obtain ⟨p, la, lo, _, _, _, _, hzero, hpos, _⟩ := processDatabaseRow_inv hr
    push_neg at hzero
    exact ⟨lo, la, hpos, hzero.2, hzero.1⟩
  · intro opts data rec hmem
    obtain ⟨r, _, hr⟩ := mem_runRows hmem
    obtain ⟨l, pv, _, hlen, _, _, _, hpos, _⟩ := validateRow_inv hr
    rw [hpos, hlen]

/-- C8 witness: the first end-to-end record's position is the nonzero
numeric pair resolved from the row. -/
theorem claim8_position_witness :
    ∃ lo la : ℚ, endRec1.position = [JSVal.num lo, JSVal.num la] ∧ lo ≠ 0 ∧ la ≠ 0 :=
  claim8_position.1 defaultCSVOptions [endRow1, endRow2] endRec1
    (by with_unfolding_all exact List.Mem.head [])

/-- C9 counterexample: running the legacy processor twice on the same
coordinate-absent row with two different random sources yields different
outputs — `geocodeAddress` fabricates coordinates from `Math.random`, so
the coordinate-absent path is not a deterministic function of the input
and configuration. -/
theorem claim9_idempotence_cx :
    processRealEstateData defaultFilters (fun _ => 0) [redNoCoordRow] ≠
    processRealEstateData defaultFilters (fun _ => (1 : ℚ) / 2) [redNoCoordRow] := by
  with_unfolding_all decide

/-- C9 (amended): the legacy processor is insensitive to the random source
— two runs yield identical output sequences and counts — provided every
input row carries truthy 緯度 and 經度 fields, so that the randomized
geocode fallback is never taken; a coordinate-absent row breaks this (see
the counterexample). -/
theorem claim9_idempotence :
    ∀ (opts : Filters) (rows : List Row) (rand1 rand2 : Nat → ℚ),
      (∀ r ∈ rows, truthyOpt (lookupRow r "緯度") = true ∧
        truthyOpt (lookupRow r "經度") = true) →
      processRealEstateData opts rand1 rows = processRealEstateData opts rand2 rows :=
  fun _ _ rand1 rand2 h => runRED_coordsPresent h rand1 rand2 0 0

/-- C9 witness: on a row with both coordinate fields the legacy processor
returns the same result under two different random sources. -/
theorem claim9_idempotence_witness :
    processRealEstateData defaultFilters (fun _ => 0) [redCoordRow] =
    processRealEstateData defaultFilters (fun _ => 1) [redCoordRow] :=
  claim9_idempotence defaultFilters [redCoordRow] (fun _ => 0) (fun _ => 1)
    (by
      intro r hr
      rw [List.mem_singleton.mp hr]
      exact ⟨by with_unfolding_all rfl, by with_unfolding_all rfl⟩)

/-- Rows all of whose per-row results are skips leave the output empty. -/
theorem runRows_all_none {α : Type} {f : α → Option Record} {rows : List α}
    (h : ∀ r ∈ rows, f r = none) : (runRows f rows).1 = [] := by
  induction rows with
  | nil => rfl
  | cons r rs ih =>
    simp only [runRows, h r (List.mem_cons_self r rs)]
    exact ih (fun x hx => h x (List.mem_cons_of_mem r hx))

/-- C10 counterexample: with inverted bounds (`minPrice = 5 > 1 =
maxPrice`) the document adapter still emits a record — a non-numeric
truthy price (`abc`) coerces to NaN, both bound comparisons are false, and
the row passes, so the returned sequence is not empty. -/
theorem claim10_inverted_cx :
    (⟨5, 1, []⟩ : Filters).maxPrice < (⟨5, 1, []⟩ : Filters).minPrice ∧
    validateAndProcessData ⟨5, 1, []⟩ [docAbcRow] = ([docAbcRec], 0) := by
  exact ⟨by norm_num, by with_unfolding_all rfl⟩

/-- C10 (amended): with `minPrice` strictly greater than `maxPrice` the
CSV-shaped and relational adapters return an empty record sequence for
every input, without raising a configuration error; the document adapter
returns an empty sequence provided each row's present price value coerces
to a number (a non-numeric truthy price escapes the bounds, see the
counterexample). -/
theorem claim10_inverted_bounds :
    (∀ (opts : CSVOptions) (rows : List Row),
        opts.maxPrice < opts.minPrice → (processCSVRecords opts rows).1 = []) ∧
    (∀ (opts : Filters) (rows : List Row),
        opts.maxPrice < opts.minPrice → (processDatabaseRecords opts rows).1 = []) ∧
    (∀ (opts : Filters) (data : List DocRow),
        opts.maxPrice < opts.minPrice →
        (∀ item ∈ data, ∀ v, lookupRow item "price" = some v →
          ∃ q, jsToNumberD v = some q) →
        (validateAndProcessData opts data).1 = []) := by
  refine ⟨?_, ?_, ?_⟩
  · intro _ _ h
    exact runRows_all_none (fun r _ => processCSVRow_minGtMax h)
  · intro _ _ h
    exact runRows_all_none (fun r _ => processDatabaseRow_minGtMax h)
  · intro _ _ h hq
    exact runRows_all_none (fun r hr => validateRow_minGtMax h (hq r hr))

/-- C10 witness: with inverted bounds the CSV adapter rejects the
otherwise-valid boundary row. -/
theorem claim10_inverted_bounds_witness :
    (processCSVRecords ⟨5, 1, [], defaultMapping⟩ [boundaryRow 100000]).1 = [] :=
  claim10_inverted_bounds.1 ⟨5, 1, [], defaultMapping⟩ [boundaryRow 100000]
    (by norm_num)

end RealEstate



